import Mathlib

/-!
Verification development for the `embedded-fatfs` repository.

This file gives a shallow embedding of two parts of the code base and
proves properties about them:

* the DOS date/time codec of `fatrs/src/time.rs` (`Date`, `Time`,
  `DateTime`, their `encode`/`decode` functions and the
  `NullTimeProvider`), and
* the single-page buffer domain service of
  `fatrs-adapters/src/domain/page_buffer.rs` together with its supporting
  value objects (`PageNumber`, `BlockAddress`, `PageConfig`), the `Page`
  entity with its `Clean`/`Dirty` state, and the `DomainError` type.

Machine integers are modelled as `Nat` with an explicit `% 2^w` at every
operation of the source that can truncate or wrap (`u16` shifts in the
date/time codec, the `num_pages as u32` cast and `u32` arithmetic in the
page buffer, the `usize` size computation of the direct I/O paths).
Block storage is modelled as an ideal byte-addressed memory
`mem : Nat → Nat`; every buffer operation additionally returns the list
of storage operations (reads/writes) it issued, so that "issues no
storage read" style properties can be stated.
-/

namespace FatrsSpec

/-! ## DOS date and time (`fatrs/src/time.rs`) -/

/-- `Date` from `fatrs/src/time.rs`: full year, month of the year and day
of the month, each a `u16` in the source. -/
structure Date where
  year : Nat
  month : Nat
  day : Nat
deriving DecidableEq, Repr

/-- `Date::decode`: `year = (dos_date >> 9) + 1980`, `month =
(dos_date >> 5) & 0xF`, `day = dos_date & 0x1F`.  No `u16` operation here
can overflow, so no truncation is modelled. -/
def Date.decode (dosDate : Nat) : Date :=
  { year := (dosDate >>> 9) + 1980
    month := (dosDate >>> 5) &&& 0xF
    day := dosDate &&& 0x1F }

/-- `Date::encode`: `((year - 1980) << 9) | (month << 5) | day` computed
on `u16`, so each shift result is truncated to 16 bits. -/
def Date.encode (d : Date) : Nat :=
  (((d.year - 1980) <<< 9) % 65536) ||| ((d.month <<< 5) % 65536) ||| d.day

/-- `Time` from `fatrs/src/time.rs`: hours, minutes, seconds and
milliseconds, each a `u16` in the source. -/
structure Time where
  hour : Nat
  min : Nat
  sec : Nat
  millis : Nat
deriving DecidableEq, Repr

/-- `Time::decode`: `hour = dos_time >> 11`, `min = (dos_time >> 5) &
0x3F`, `sec = (dos_time & 0x1F) * 2 + hi_res / 100`, `millis = (hi_res %
100) * 10`.  For `dos_time : u16` and `hi_res : u8` no operation can
overflow `u16`. -/
def Time.decode (dosTime hiRes : Nat) : Time :=
  { hour := dosTime >>> 11
    min := (dosTime >>> 5) &&& 0x3F
    sec := (dosTime &&& 0x1F) * 2 + hiRes / 100
    millis := (hiRes % 100) * 10 }

/-- `Time::encode`: returns the pair `(dos_time, dos_time_hi_res)` with
`dos_time = (hour << 11) | (min << 5) | (sec / 2)` on `u16` and
`dos_time_hi_res = (millis / 10 + (sec % 2) * 100) as u8` (the `as u8`
cast truncates mod 256). -/
def Time.encode (t : Time) : Nat × Nat :=
  ((((t.hour <<< 11) % 65536) ||| ((t.min <<< 5) % 65536)) ||| (t.sec / 2),
   (t.millis / 10 + (t.sec % 2) * 100) % 256)

/-- `DateTime` from `fatrs/src/time.rs`: a date part and a time part. -/
structure DateTime where
  date : Date
  time : Time
deriving DecidableEq, Repr

/-- `DateTime::decode` delegates to `Date::decode` and `Time::decode`. -/
def DateTime.decode (dosDate dosTime hiRes : Nat) : DateTime :=
  { date := Date.decode dosDate, time := Time.decode dosTime hiRes }

/-- `NullTimeProvider::get_current_date` returns `Date::decode(0)`. -/
def NullTimeProvider.getCurrentDate : Date := Date.decode 0

/-- `NullTimeProvider::get_current_date_time` returns
`DateTime::decode(0, 0, 0)`. -/
def NullTimeProvider.getCurrentDateTime : DateTime := DateTime.decode 0 0 0

/-! ## Page buffer domain model (`fatrs-adapters/src/domain`) -/

/-- `PageState` from `entities/page_state.rs`: a page is either `Clean`
(synchronized with storage) or `Dirty` (modified, needs write-back). -/
inductive PageState where
  | Clean : PageState
  | Dirty : PageState
deriving DecidableEq, Repr

/-- `PageState::is_dirty`. -/
def PageState.isDirty : PageState → Bool
  | .Dirty => true
  | .Clean => false

/-- `PageState::is_clean`. -/
def PageState.isClean : PageState → Bool
  | .Clean => true
  | .Dirty => false

/-- The `Page` entity from `entities/page.rs`: a page number
(`PageNumber`, a `u32` newtype, modelled as `Nat`), the page data
(a byte vector, modelled as `List Nat`) and the clean/dirty state. -/
structure Page where
  number : Nat
  data : List Nat
  state : PageState
deriving DecidableEq, Repr

/-- `PageConfig` from `value_objects/page_config.rs` together with its
`BLOCK_SIZE` const generic: page size in bytes, number of blocks per
page, and the block size in bytes.  `PageConfig::new` asserts
`pageSize = blocksPerPage * blockSize`; that invariant is carried as a
hypothesis where a theorem needs it. -/
structure PageConfig where
  blockSize : Nat
  pageSize : Nat
  blocksPerPage : Nat
deriving DecidableEq, Repr

/-- `PageConfig::page_to_block`: `page.value() * blocks_per_page as u32`,
a `u32` multiplication (wraps mod `2^32`). -/
def PageConfig.pageToBlock (c : PageConfig) (page : Nat) : Nat :=
  (page * c.blocksPerPage) % 4294967296

/-- `DomainError` from `domain/error.rs`.  Only the variants that the
modelled (heap) implementation can produce are kept: `InvalidConfig` is
raised only by the stack `load`, and `Storage` only wraps failures of the
underlying device, which the ideal in-memory storage model never
produces. -/
inductive DomainError where
  | DirtyPageConflict (current requested : Nat) : DomainError
  | NoPageLoaded : DomainError
deriving DecidableEq, Repr

/-- One operation issued to the `BlockStorage` port: a read of `len`
bytes starting at block `blockAddr`, or a write of `data` starting at
block `blockAddr`. -/
inductive StorageEvent where
  | read (blockAddr len : Nat) : StorageEvent
  | write (blockAddr : Nat) (data : List Nat) : StorageEvent
deriving DecidableEq, Repr

/-- Read `len` bytes from an ideal byte-addressed memory starting at byte
address `start` (the semantics of `BlockStorage::read_blocks`, with
`start` already converted from a block address to a byte address). -/
def readBytes (mem : Nat → Nat) (start len : Nat) : List Nat :=
  (List.range len).map fun i => mem (start + i)

/-- Write the bytes `src` to an ideal byte-addressed memory starting at
byte address `start` (the semantics of `BlockStorage::write_blocks`). -/
def writeBytes (mem : Nat → Nat) (start : Nat) (src : List Nat) : Nat → Nat :=
  fun a => if start ≤ a ∧ a < start + src.length then src.getD (a - start) 0 else mem a

/-- `PageBuffer` from `domain/page_buffer.rs`: the storage (modelled as
an ideal byte-addressed memory), the page configuration, and the
currently held page, if any. -/
structure PageBuffer where
  mem : Nat → Nat
  config : PageConfig
  current : Option Page

/-- The result of one `PageBuffer` operation: the returned
`Result`-value, the buffer state afterwards, and the list of storage
operations issued. -/
structure OpResult (α : Type) where
  result : Except DomainError α
  buffer : PageBuffer
  events : List StorageEvent

/-- `PageBuffer::new`: starts with no page loaded. -/
def PageBuffer.new (mem : Nat → Nat) (config : PageConfig) : PageBuffer :=
  { mem := mem, config := config, current := none }

/-- The storage-fetch tail of `PageBuffer::load`: read one page worth of
bytes from `page_to_block(number)` and hold it as a clean page. -/
def PageBuffer.fetchPage (b : PageBuffer) (number : Nat) : OpResult Unit :=
  let blockAddr := b.config.pageToBlock number
  let pageSize := b.config.pageSize
  let data := readBytes b.mem (blockAddr * b.config.blockSize) pageSize
  { result := .ok ()
    buffer := { b with current := some { number := number, data := data, state := .Clean } }
    events := [.read blockAddr pageSize] }

/-- `PageBuffer::load` (heap implementation, lines 96-126; the stack
implementation at lines 346-383 has the same conflict logic): no-op if
the requested page is already held, `DirtyPageConflict` if a different
page is held and dirty, otherwise fetch from storage. -/
def PageBuffer.load (b : PageBuffer) (number : Nat) : OpResult Unit :=
  match b.current with
  | some page =>
    if page.number = number then
      { result := .ok (), buffer := b, events := [] }
    else if page.state.isDirty then
      { result := .error (.DirtyPageConflict page.number number), buffer := b, events := [] }
    else
      b.fetchPage number
  | none => b.fetchPage number

/-- `PageBuffer::store`: write the held page's data to
`page_to_block(number)` and mark it clean; `NoPageLoaded` if no page is
held. -/
def PageBuffer.store (b : PageBuffer) : OpResult Unit :=
  match b.current with
  | none => { result := .error .NoPageLoaded, buffer := b, events := [] }
  | some page =>
    let blockAddr := b.config.pageToBlock page.number
    { result := .ok ()
      buffer := { b with
                    mem := writeBytes b.mem (blockAddr * b.config.blockSize) page.data
                    current := some { page with state := .Clean } }
      events := [.write blockAddr page.data] }

/-- `PageBuffer::flush`: `store` if the held page is dirty, otherwise a
no-op. -/
def PageBuffer.flush (b : PageBuffer) : OpResult Unit :=
  match b.current with
  | some page =>
    if page.state.isDirty then b.store
    else { result := .ok (), buffer := b, events := [] }
  | none => { result := .ok (), buffer := b, events := [] }

/-- `PageBuffer::modify`: apply `f` to the held page's data through
`Page::data_mut`, which marks the page dirty; `NoPageLoaded` if no page
is held.  In the source `f` mutates a byte slice in place, so it cannot
change the data length; theorems quantify over length-preserving `f`. -/
def PageBuffer.modify (b : PageBuffer) (f : List Nat → List Nat) : OpResult Unit :=
  match b.current with
  | none => { result := .error .NoPageLoaded, buffer := b, events := [] }
  | some page =>
    { result := .ok ()
      buffer := { b with current := some { number := page.number, data := f page.data, state := .Dirty } }
      events := [] }

/-- `PageBuffer::current`: the held page, or `NoPageLoaded`. -/
def PageBuffer.currentPage (b : PageBuffer) : Except DomainError Page :=
  match b.current with
  | none => .error .NoPageLoaded
  | some p => .ok p

/-- `PageBuffer::current_mut`: the held page (mutably), or
`NoPageLoaded`.  Observationally the same accessor as
`PageBuffer::current`. -/
def PageBuffer.currentPageMut (b : PageBuffer) : Except DomainError Page :=
  match b.current with
  | none => .error .NoPageLoaded
  | some p => .ok p

/-- `PageBuffer::clear`: drop the held page. -/
def PageBuffer.clear (b : PageBuffer) : PageBuffer :=
  { b with current := none }

/-- `PageBuffer::read_pages_direct`: read `num_pages * page_size` bytes
(or `dest.len()` bytes if `dest` is shorter; `expected_size` is a `usize`
product, truncated mod `2^64`) starting at `page_to_block(start)`,
bypassing the buffer.  The held page is not touched.  The returned value
is the list of bytes read into `dest`. -/
def PageBuffer.readPagesDirect (b : PageBuffer) (start destLen numPages : Nat) :
    OpResult (List Nat) :=
  let startBlock := b.config.pageToBlock start
  let expected := (numPages * b.config.pageSize) % 18446744073709551616
  let len := if destLen < expected then destLen else expected
  { result := .ok (readBytes b.mem (startBlock * b.config.blockSize) len)
    buffer := b
    events := [.read startBlock len] }

/-- `PageBuffer::write_pages_direct`: write `src` (truncated to
`num_pages * page_size` bytes if longer; the `usize` product is taken mod
`2^64`) starting at `page_to_block(start)`, bypassing the buffer; then
drop the held page if its number lies in `[start, end_page)` where
`end_page = start + (num_pages as u32)` is computed in wrapping `u32`
arithmetic (the `as u32` cast truncates mod `2^32`). -/
def PageBuffer.writePagesDirect (b : PageBuffer) (start : Nat) (src : List Nat)
    (numPages : Nat) : OpResult Unit :=
  let startBlock := b.config.pageToBlock start
  let expected := (numPages * b.config.pageSize) % 18446744073709551616
  let written := if src.length < expected then src else src.take expected
  let endPage := (start + numPages % 4294967296) % 4294967296
  let cur : Option Page :=
    match b.current with
    | some current =>
      if start ≤ current.number ∧ current.number < endPage then none else some current
    | none => none
  { result := .ok ()
    buffer := { b with mem := writeBytes b.mem (startBlock * b.config.blockSize) written
                       current := cur }
    events := [.write startBlock written] }

/-- The clean-page invariant of the spec: whenever the held page is in
the `Clean` state, its in-memory data equals the storage contents of the
block range its page number maps to. -/
def PageBuffer.CleanMatches (b : PageBuffer) : Prop :=
  ∀ p, b.current = some p → p.state = PageState.Clean →
    p.data = readBytes b.mem (b.config.pageToBlock p.number * b.config.blockSize) b.config.pageSize

/-! ## Claims about the page buffer -/

/-- Claim C1: for every `PageBuffer` state holding a dirty page `p` and
every page number `n` different from `p`'s number, `load n` returns the
`DirtyPageConflict` error carrying `current = p.number` and
`requested = n`, issues no storage read, and leaves the buffer unchanged
(still holding `p` with its data and dirty state). -/
theorem c1_load_dirty_page_conflict (b : PageBuffer) (p : Page) (n : Nat)
    (hcur : b.current = some p) (hdirty : p.state = PageState.Dirty)
    (hne : p.number ≠ n) :
    (b.load n).result = Except.error (DomainError.DirtyPageConflict p.number n) ∧
    (b.load n).buffer = b ∧
    (b.load n).events = [] := by
  simp [PageBuffer.load, hcur, hne, hdirty, PageState.isDirty]

/-- Witness for C1 at a concrete buffer holding dirty page 0 while page 1
is requested. -/
theorem c1_witness :
    (PageBuffer.mk (fun _ => 0) ⟨1, 1, 1⟩ (some ⟨0, [3], PageState.Dirty⟩)).current =
      some ⟨0, [3], PageState.Dirty⟩ ∧
    ((PageBuffer.mk (fun _ => 0) ⟨1, 1, 1⟩ (some ⟨0, [3], PageState.Dirty⟩)).load 1).result =
      Except.error (DomainError.DirtyPageConflict 0 1) :=
  ⟨rfl, (c1_load_dirty_page_conflict _ ⟨0, [3], PageState.Dirty⟩ 1 rfl rfl (by decide)).1⟩

/-- Claim C7: for every buffer state holding a page `p` — clean or dirty —
`load p.number` returns `Ok`, issues no storage read, and leaves the
buffer (held page number, data and state) unchanged. -/
theorem c7_load_held_page_noop (b : PageBuffer) (p : Page)
    (hcur : b.current = some p) :
    (b.load p.number).result = Except.ok () ∧
    (b.load p.number).buffer = b ∧
    (b.load p.number).events = [] := by
  simp [PageBuffer.load, hcur]

/-- Witness for C7 at a concrete buffer holding dirty page 5. -/
theorem c7_witness :
    (PageBuffer.mk (fun _ => 0) ⟨1, 1, 1⟩ (some ⟨5, [7], PageState.Dirty⟩)).current =
      some ⟨5, [7], PageState.Dirty⟩ ∧
    ((PageBuffer.mk (fun _ => 0) ⟨1, 1, 1⟩ (some ⟨5, [7], PageState.Dirty⟩)).load 5).buffer =
      PageBuffer.mk (fun _ => 0) ⟨1, 1, 1⟩ (some ⟨5, [7], PageState.Dirty⟩) :=
  ⟨rfl, (c7_load_held_page_noop _ ⟨5, [7], PageState.Dirty⟩ rfl).2.1⟩

/-- Claim C6: if the held page is dirty, `flush` writes its full data to
storage at `page_to_block(number)` and marks it clean while keeping it
held; if the held page is clean, or no page is held, `flush` returns `Ok`
without issuing any storage write. -/
theorem c6_flush_behavior (b : PageBuffer) (p : Page) :
    (b.current = some p → p.state = PageState.Dirty →
      b.flush.result = Except.ok () ∧
      b.flush.buffer.mem =
        writeBytes b.mem (b.config.pageToBlock p.number * b.config.blockSize) p.data ∧
      b.flush.buffer.config = b.config ∧
      b.flush.buffer.current = some { p with state := PageState.Clean } ∧
      b.flush.events = [StorageEvent.write (b.config.pageToBlock p.number) p.data]) ∧
    (b.current = some p → p.state = PageState.Clean →
      b.flush = { result := Except.ok (), buffer := b, events := [] }) ∧
    (b.current = none →
      b.flush = { result := Except.ok (), buffer := b, events := [] }) := by
  refine ⟨fun hcur hdirty => ?_, fun hcur hclean => ?_, fun hnone => ?_⟩
  · simp [PageBuffer.flush, PageBuffer.store, hcur, hdirty, PageState.isDirty]
  · simp [PageBuffer.flush, hcur, hclean, PageState.isDirty]
  · simp [PageBuffer.flush, hnone]

/-- Witness for C6 at a concrete buffer holding dirty page 0: `flush`
marks it clean and issues the write-back. -/
theorem c6_witness :
    (PageBuffer.mk (fun _ => 0) ⟨1, 1, 1⟩ (some ⟨0, [9], PageState.Dirty⟩)).current =
      some ⟨0, [9], PageState.Dirty⟩ ∧
    (PageBuffer.mk (fun _ => 0) ⟨1, 1, 1⟩ (some ⟨0, [9], PageState.Dirty⟩)).flush.buffer.current =
      some ⟨0, [9], PageState.Clean⟩ :=
  ⟨rfl, ((c6_flush_behavior _ ⟨0, [9], PageState.Dirty⟩).1 rfl rfl).2.2.2.1⟩

/-- Claim C9: in every buffer state holding no page (as after construction
or after `clear`), `store`, `modify`, `current` and `current_mut` all
return the `NoPageLoaded` error, issue no storage operation, and leave
the buffer still holding no page. -/
theorem c9_no_page_loaded_errors (b : PageBuffer) (f : List Nat → List Nat)
    (m : Nat → Nat) (c : PageConfig) (hnone : b.current = none) :
    (PageBuffer.new m c).current = none ∧
    b.clear.current = none ∧
    b.store = { result := Except.error DomainError.NoPageLoaded, buffer := b, events := [] } ∧
    b.modify f = { result := Except.error DomainError.NoPageLoaded, buffer := b, events := [] } ∧
    b.currentPage = Except.error DomainError.NoPageLoaded ∧
    b.currentPageMut = Except.error DomainError.NoPageLoaded := by
  refine ⟨rfl, rfl, ?_, ?_, ?_, ?_⟩ <;>
    simp [PageBuffer.store, PageBuffer.modify, PageBuffer.currentPage,
          PageBuffer.currentPageMut, hnone]

/-- Witness for C9 at a freshly constructed (empty) buffer. -/
theorem c9_witness :
    (PageBuffer.mk (fun _ => 0) ⟨1, 1, 1⟩ none).current = none ∧
    (PageBuffer.mk (fun _ => 0) ⟨1, 1, 1⟩ none).store.result =
      Except.error DomainError.NoPageLoaded :=
  ⟨rfl,
   congrArg OpResult.result
     ((c9_no_page_loaded_errors (PageBuffer.mk (fun _ => 0) ⟨1, 1, 1⟩ none)
        id (fun _ => 0) ⟨1, 1, 1⟩ rfl).2.2.1)⟩

/-- Counterexample to claim C3 as stated: `read_pages_direct` over a range
containing the held page's number returns `Ok` but does NOT invalidate
the held page — only `write_pages_direct` has invalidation logic.  Here
the buffer holds page 0 (one-byte pages) and `read_pages_direct(0, dest,
1)` covers it, yet the page is still held afterwards. -/
theorem c3_counterexample :
    ((PageBuffer.mk (fun _ => 0) ⟨1, 1, 1⟩
        (some ⟨0, [0], PageState.Clean⟩)).readPagesDirect 0 1 1).result = Except.ok [0] ∧
    ((PageBuffer.mk (fun _ => 0) ⟨1, 1, 1⟩
        (some ⟨0, [0], PageState.Clean⟩)).readPagesDirect 0 1 1).buffer.current =
      some ⟨0, [0], PageState.Clean⟩ := by
  constructor <;> rfl

/-- Claim C3 as amended: `read_pages_direct` never touches the buffer
state (the held page always stays in place); `write_pages_direct` whose
page range `[start, start + num_pages)` contains the held page's number
empties the buffer on `Ok`, provided `start + num_pages` does not exceed
the `u32` range (the end of range is computed after an `as u32`
truncation of `num_pages`); write calls whose range does not contain the
held page's number leave the held page in place. -/
theorem c3_direct_io_invalidation (b : PageBuffer) (p : Page)
    (start destLen numPages : Nat) (src : List Nat)
    (hcur : b.current = some p) :
    (b.readPagesDirect start destLen numPages).buffer = b ∧
    (start ≤ p.number → p.number < start + numPages → start + numPages < 4294967296 →
      (b.writePagesDirect start src numPages).result = Except.ok () ∧
      (b.writePagesDirect start src numPages).buffer.current = none) ∧
    (¬(start ≤ p.number ∧ p.number < start + numPages) →
      (b.writePagesDirect start src numPages).buffer.current = some p) := by
  refine ⟨rfl, fun h1 h2 h3 => ?_, fun hno => ?_⟩
  · have hnum : numPages % 4294967296 = numPages := Nat.mod_eq_of_lt (by omega)
    have hend : (start + numPages) % 4294967296 = start + numPages := Nat.mod_eq_of_lt h3
    simp only [PageBuffer.writePagesDirect, hcur, hnum, hend]
    rw [if_pos ⟨h1, h2⟩]
    exact ⟨trivial, rfl⟩
  · have hcond : ¬(start ≤ p.number ∧
        p.number < (start + numPages % 4294967296) % 4294967296) := by
      rintro ⟨ha, hb⟩
      exact hno ⟨ha, lt_of_lt_of_le hb
        (le_trans (Nat.mod_le _ _) (Nat.add_le_add_left (Nat.mod_le _ _) start))⟩
    simp only [PageBuffer.writePagesDirect, hcur]
    rw [if_neg hcond]

/-- Witness for C3 (amended): a write covering held page 0 empties the
buffer. -/
theorem c3_witness :
    (0 : Nat) ≤ 0 ∧ (0 : Nat) < 0 + 1 ∧ (0 : Nat) + 1 < 4294967296 ∧
    ((PageBuffer.mk (fun _ => 0) ⟨1, 1, 1⟩
        (some ⟨0, [0], PageState.Clean⟩)).writePagesDirect 0 [4] 1).buffer.current = none :=
  ⟨by decide, by decide, by decide,
   ((c3_direct_io_invalidation _ ⟨0, [0], PageState.Clean⟩ 0 0 1 [4] rfl).2.1
      (by decide) (by decide) (by decide)).2⟩

/-- Counterexample to claim C8 as stated: with `num_pages = 2^32` the
`as u32` cast truncates the count to 0 when the end of range is computed,
so a `write_pages_direct` whose real page range `[1, 1 + 2^32)` contains
the held dirty page 1 returns `Ok` yet does NOT empty the buffer. -/
theorem c8_counterexample :
    (1 : Nat) ≤ 1 ∧ (1 : Nat) < 1 + 4294967296 ∧
    ((PageBuffer.mk (fun _ => 0) ⟨1, 1, 1⟩
        (some ⟨1, [0], PageState.Dirty⟩)).writePagesDirect 1 [] 4294967296).result =
      Except.ok () ∧
    ((PageBuffer.mk (fun _ => 0) ⟨1, 1, 1⟩
        (some ⟨1, [0], PageState.Dirty⟩)).writePagesDirect 1 [] 4294967296).buffer.current =
      some ⟨1, [0], PageState.Dirty⟩ := by
  exact ⟨by decide, by decide, rfl, rfl⟩

/-- Claim C8 as amended: for every state holding a dirty page and every
`write_pages_direct` call whose page range contains the dirty page's
number with `start + num_pages` within the `u32` range, the call returns
`Ok` (no `DirtyPageConflict` or other error), issues exactly one storage
write whose bytes are drawn from `src` (a prefix of `src`; the dirty
page's unflushed data is never written), and empties the buffer. -/
theorem c8_write_direct_discards_dirty (b : PageBuffer) (p : Page)
    (start numPages : Nat) (src : List Nat)
    (hcur : b.current = some p) (_hdirty : p.state = PageState.Dirty)
    (h1 : start ≤ p.number) (h2 : p.number < start + numPages)
    (h3 : start + numPages < 4294967296) :
    (b.writePagesDirect start src numPages).result = Except.ok () ∧
    (b.writePagesDirect start src numPages).buffer.current = none ∧
    ∃ w, (b.writePagesDirect start src numPages).events =
        [StorageEvent.write (b.config.pageToBlock start) w] ∧
      w = src.take w.length := by
  have hnum : numPages % 4294967296 = numPages := Nat.mod_eq_of_lt (by omega)
  have hend : (start + numPages) % 4294967296 = start + numPages := Nat.mod_eq_of_lt h3
  simp only [PageBuffer.writePagesDirect, hcur, hnum, hend]
  rw [if_pos ⟨h1, h2⟩]
  refine ⟨trivial, rfl, ?_⟩
  by_cases hsrc : src.length < (numPages * b.config.pageSize) % 18446744073709551616
  · exact ⟨src, by rw [if_pos hsrc], by rw [List.take_length]⟩
  · refine ⟨src.take ((numPages * b.config.pageSize) % 18446744073709551616),
      by rw [if_neg hsrc], ?_⟩
    rw [List.length_take,
        Nat.min_eq_left (Nat.le_of_not_lt hsrc)]

/-- Witness for C8 (amended): a write covering held dirty page 1 returns
`Ok` and empties the buffer. -/
theorem c8_witness :
    (1 : Nat) ≤ 1 ∧ (1 : Nat) < 1 + 1 ∧ (1 : Nat) + 1 < 4294967296 ∧
    ((PageBuffer.mk (fun _ => 0) ⟨1, 1, 1⟩
        (some ⟨1, [5], PageState.Dirty⟩)).writePagesDirect 1 [4] 1).buffer.current = none :=
  ⟨by decide, by decide, by decide,
   (c8_write_direct_discards_dirty _ ⟨1, [5], PageState.Dirty⟩ 1 1 [4]
      rfl rfl (by decide) (by decide) (by decide)).2.1⟩

/-- Claim C2 is right and the code is wrong: the `num_pages as u32`
truncation in `write_pages_direct`'s overlap check lets a direct write
overwrite the storage bytes of the held clean page without invalidating
it, contradicting the inline comment "Invalidate buffer if we wrote to
the current page" and breaking the clean-page invariant.  Here the
buffer holds clean page 2 (one-byte pages) whose data matches storage;
`write_pages_direct(1, [7, 9], 2^32)` writes byte 9 to page 2's storage,
returns `Ok`, and leaves the stale clean page in the buffer. -/
theorem c2_clean_invariant_code_bug :
    PageBuffer.CleanMatches
      (PageBuffer.mk (fun _ => 0) ⟨1, 1, 1⟩ (some ⟨2, [0], PageState.Clean⟩)) ∧
    ((PageBuffer.mk (fun _ => 0) ⟨1, 1, 1⟩
        (some ⟨2, [0], PageState.Clean⟩)).writePagesDirect 1 [7, 9] 4294967296).result =
      Except.ok () ∧
    ¬PageBuffer.CleanMatches
      ((PageBuffer.mk (fun _ => 0) ⟨1, 1, 1⟩
          (some ⟨2, [0], PageState.Clean⟩)).writePagesDirect 1 [7, 9] 4294967296).buffer := by
  refine ⟨fun p hp hst => ?_, rfl, fun h => ?_⟩
  · rw [← Option.some_inj.mp hp]
    decide
  · have h2 := h ⟨2, [0], PageState.Clean⟩ rfl rfl
    exact absurd h2 (by decide)

/-! ## Claims about the DOS date/time codec -/

/-- Splitting a disjoint bitwise or into an addition: if `b` fits below
bit `k`, then `a * 2 ^ k ||| b = a * 2 ^ k + b`. -/
theorem lor_split (k a b : Nat) (hb : b < 2 ^ k) : a * 2 ^ k ||| b = a * 2 ^ k + b := by
  rw [Nat.mul_comm a (2 ^ k)]
  exact (Nat.mul_add_lt_is_or hb a).symm

/-- `Date.decode` in plain division/modulus form. -/
theorem date_decode_arith (x : Nat) :
    Date.decode x = ⟨x / 512 + 1980, x / 32 % 16, x % 32⟩ := by
  unfold Date.decode
  congr 1
  · rw [Nat.shiftRight_eq_div_pow]
  · rw [Nat.shiftRight_eq_div_pow, (by norm_num : (15 : Nat) = 2 ^ 4 - 1),
        Nat.and_pow_two_sub_one_eq_mod]
  · rw [(by norm_num : (31 : Nat) = 2 ^ 5 - 1), Nat.and_pow_two_sub_one_eq_mod]

/-- `Time.decode` in plain division/modulus form. -/
theorem time_decode_arith (x h : Nat) :
    Time.decode x h = ⟨x / 2048, x / 32 % 64, x % 32 * 2 + h / 100, h % 100 * 10⟩ := by
  unfold Time.decode
  congr 1
  · rw [Nat.shiftRight_eq_div_pow]
  · rw [Nat.shiftRight_eq_div_pow, (by norm_num : (63 : Nat) = 2 ^ 6 - 1),
        Nat.and_pow_two_sub_one_eq_mod]
  · rw [(by norm_num : (31 : Nat) = 2 ^ 5 - 1), Nat.and_pow_two_sub_one_eq_mod]

/-- For dates in the representable range no `u16` truncation fires in
`Date.encode`, and the packed word is the plain sum of the three
fields. -/
theorem date_encode_arith (d : Date) (hy1 : 1980 ≤ d.year) (hy2 : d.year ≤ 2107)
    (hm : d.month ≤ 12) (hd : d.day ≤ 31) :
    Date.encode d = (d.year - 1980) * 512 + d.month * 32 + d.day := by
  unfold Date.encode
  rw [Nat.shiftLeft_eq, Nat.shiftLeft_eq]
  have e1 : (d.year - 1980) * 2 ^ 9 % 65536 = (d.year - 1980) * 2 ^ 9 :=
    Nat.mod_eq_of_lt (by omega)
  have e2 : d.month * 2 ^ 5 % 65536 = d.month * 2 ^ 5 := Nat.mod_eq_of_lt (by omega)
  rw [e1, e2, Nat.lor_assoc, lor_split 5 d.month d.day (by omega),
      lor_split 9 (d.year - 1980) (d.month * 2 ^ 5 + d.day) (by omega)]
  omega

/-- For times in the representable range no `u16` truncation fires in the
first component of `Time.encode`, and the packed word is the plain sum of
the three fields. -/
theorem time_encode_fst_arith (t : Time) (hh : t.hour ≤ 23) (hm : t.min ≤ 59)
    (hs : t.sec ≤ 59) :
    (Time.encode t).1 = t.hour * 2048 + t.min * 32 + t.sec / 2 := by
  unfold Time.encode
  rw [Nat.shiftLeft_eq, Nat.shiftLeft_eq]
  have e1 : t.hour * 2 ^ 11 % 65536 = t.hour * 2 ^ 11 := Nat.mod_eq_of_lt (by omega)
  have e2 : t.min * 2 ^ 5 % 65536 = t.min * 2 ^ 5 := Nat.mod_eq_of_lt (by omega)
  rw [e1, e2, Nat.lor_assoc, lor_split 5 t.min (t.sec / 2) (by omega),
      lor_split 11 t.hour (t.min * 2 ^ 5 + t.sec / 2) (by omega)]
  omega

/-- For `millis ≤ 999` the `as u8` cast in the second component of
`Time.encode` does not truncate. -/
theorem time_encode_snd_arith (t : Time) (hmil : t.millis ≤ 999) :
    (Time.encode t).2 = t.millis / 10 + t.sec % 2 * 100 :=
  Nat.mod_eq_of_lt (by omega)

/-- Claim C4 is right and the code is wrong:
`NullTimeProvider::get_current_date` returns `Date::decode(0)`, which is
`{year := 1980, month := 0, day := 0}` — month 0 and day 0, not the
1980-01-01 promised both by the claim and by the provider's own doc
comment ("always returns DOS minimal date-time (1980-01-01 00:00:00)")
and outside the documented field ranges `month ∈ [1,12]`, `day ∈ [1,31]`.
The time part of `get_current_date_time` does equal 00:00:00.0. -/
theorem c4_null_time_provider_value :
    NullTimeProvider.getCurrentDate = ⟨1980, 0, 0⟩ ∧
    NullTimeProvider.getCurrentDateTime = ⟨⟨1980, 0, 0⟩, ⟨0, 0, 0, 0⟩⟩ :=
  ⟨rfl, rfl⟩

/-- Claim C5: for every date in the representable range `Date.encode`
yields exactly `((year - 1980) <<< 9) ||| (month <<< 5) ||| day`, and for
every time in range the `dos_time` word of `Time.encode` equals
`(hour <<< 11) ||| (min <<< 5) ||| (sec / 2)` (no `u16` truncation
interferes). -/
theorem c5_encode_formulas (d : Date) (t : Time)
    (hy1 : 1980 ≤ d.year) (hy2 : d.year ≤ 2107) (hm1 : 1 ≤ d.month) (hm2 : d.month ≤ 12)
    (hd1 : 1 ≤ d.day) (hd2 : d.day ≤ 31)
    (hh : t.hour ≤ 23) (hmin : t.min ≤ 59) (hs : t.sec ≤ 59) :
    Date.encode d = ((d.year - 1980) <<< 9) ||| (d.month <<< 5) ||| d.day ∧
    (Time.encode t).1 = (t.hour <<< 11) ||| (t.min <<< 5) ||| (t.sec / 2) := by
  constructor
  · rw [date_encode_arith d hy1 hy2 hm2 hd2, Nat.shiftLeft_eq, Nat.shiftLeft_eq,
        Nat.lor_assoc, lor_split 5 d.month d.day (by omega),
        lor_split 9 (d.year - 1980) (d.month * 2 ^ 5 + d.day) (by omega)]
    omega
  · rw [time_encode_fst_arith t hh hmin hs, Nat.shiftLeft_eq, Nat.shiftLeft_eq,
        Nat.lor_assoc, lor_split 5 t.min (t.sec / 2) (by omega),
        lor_split 11 t.hour (t.min * 2 ^ 5 + t.sec / 2) (by omega)]
    omega

/-- Witness for C5 at the concrete date 2024-05-17 and time 13:45:59. -/
theorem c5_witness :
    (1980 : Nat) ≤ 2024 ∧
    Date.encode ⟨2024, 5, 17⟩ = (((2024 : Nat) - 1980) <<< 9) ||| ((5 : Nat) <<< 5) ||| 17 :=
  ⟨by decide,
   (c5_encode_formulas ⟨2024, 5, 17⟩ ⟨13, 45, 59, 0⟩ (by decide) (by decide) (by decide)
      (by decide) (by decide) (by decide) (by decide) (by decide) (by decide)).1⟩

/-- Claim C10: decoding an encoded in-range date gives the date back, and
decoding the pair produced by `Time.encode` gives the time back whenever
`millis` is a multiple of 10 (the codec stores milliseconds in units of
10 ms). -/
theorem c10_decode_encode_roundtrip (d : Date) (t : Time)
    (hy1 : 1980 ≤ d.year) (hy2 : d.year ≤ 2107) (hm1 : 1 ≤ d.month) (hm2 : d.month ≤ 12)
    (hd1 : 1 ≤ d.day) (hd2 : d.day ≤ 31)
    (hh : t.hour ≤ 23) (hmin : t.min ≤ 59) (hs : t.sec ≤ 59)
    (hmil : t.millis ≤ 999) (hmil10 : t.millis % 10 = 0) :
    Date.decode (Date.encode d) = d ∧
    Time.decode (Time.encode t).1 (Time.encode t).2 = t := by
  constructor
  · rw [date_encode_arith d hy1 hy2 hm2 hd2, date_decode_arith]
    have e1 : ((d.year - 1980) * 512 + d.month * 32 + d.day) / 512 + 1980 = d.year := by
      omega
    have e2 : ((d.year - 1980) * 512 + d.month * 32 + d.day) / 32 % 16 = d.month := by
      omega
    have e3 : ((d.year - 1980) * 512 + d.month * 32 + d.day) % 32 = d.day := by omega
    rw [e1, e2, e3]
  · rw [time_encode_fst_arith t hh hmin hs, time_encode_snd_arith t hmil,
        time_decode_arith]
    have e1 : (t.hour * 2048 + t.min * 32 + t.sec / 2) / 2048 = t.hour := by omega
    have e2 : (t.hour * 2048 + t.min * 32 + t.sec / 2) / 32 % 64 = t.min := by omega
    have e3 : (t.hour * 2048 + t.min * 32 + t.sec / 2) % 32 * 2 +
        (t.millis / 10 + t.sec % 2 * 100) / 100 = t.sec := by omega
    have e4 : (t.millis / 10 + t.sec % 2 * 100) % 100 * 10 = t.millis := by omega
    rw [e1, e2, e3, e4]

/-- Witness for C10 at the concrete date 2107-12-31 and time 23:59:59.990. -/
theorem c10_witness :
    (1980 : Nat) ≤ 2107 ∧ (990 : Nat) % 10 = 0 ∧
    Date.decode (Date.encode ⟨2107, 12, 31⟩) = ⟨2107, 12, 31⟩ ∧
    Time.decode (Time.encode ⟨23, 59, 59, 990⟩).1 (Time.encode ⟨23, 59, 59, 990⟩).2 =
      ⟨23, 59, 59, 990⟩ :=
  ⟨by decide, by decide,
   (c10_decode_encode_roundtrip ⟨2107, 12, 31⟩ ⟨23, 59, 59, 990⟩ (by decide) (by decide)
      (by decide) (by decide) (by decide) (by decide) (by decide) (by decide) (by decide)
      (by decide) (by decide)).1,
   (c10_decode_encode_roundtrip ⟨2107, 12, 31⟩ ⟨23, 59, 59, 990⟩ (by decide) (by decide)
      (by decide) (by decide) (by decide) (by decide) (by decide) (by decide) (by decide)
      (by decide) (by decide)).2⟩

end FatrsSpec
